import Mathlib

/-!
Shallow embedding of the BGP route-validation dashboard scripts
(`app.py` and `RIPE_Route_Validation_v1.2.py`): the AS-path classifier
`analyze_bgp_data`, the bounded per-prefix history `DataStorage`, and the
per-tick commit step of `update_plots` / `fetch_and_analyze_bgp` in the two
script versions.  Python dynamic values that the classifier compares are
modelled by `PyVal`; a missing dictionary key or a `.split()` call on a
non-string is modelled by `Except Unit` (the exception propagating out of
the function).
-/

/-- Decidable equality for `Except`, so concrete runs of the classifier can
be checked by `decide`. -/
instance {ε α : Type} [DecidableEq ε] [DecidableEq α] : DecidableEq (Except ε α) := fun a b =>
  match a, b with
  | .error x, .error y =>
    if h : x = y then .isTrue (by rw [h]) else .isFalse (by simp [h])
  | .error _, .ok _ => .isFalse (by simp)
  | .ok _, .error _ => .isFalse (by simp)
  | .ok x, .ok y =>
    if h : x = y then .isTrue (by rw [h]) else .isFalse (by simp [h])

namespace RouteValidation

/-- Python runtime values the classifier's comparisons can meet: the ASN
fields are strings in practice but nothing in the code enforces it. -/
inductive PyVal where
  | str (s : String)
  | int (n : Int)
deriving DecidableEq, Repr

/-- Python `==` on the modelled values: values of different types compare
unequal without raising. -/
def pyEq : PyVal → PyVal → Bool
  | .str a, .str b => a == b
  | .int a, .int b => a == b
  | _, _ => false

/-- One peer record of the raw looking-glass snapshot.  A field that is
absent from the Python dict is `none`; accessing it raises `KeyError`. -/
structure Peer where
  asn_origin : Option PyVal
  as_path : Option PyVal
deriving DecidableEq, Repr

/-- One collector (`rrc`) entry: its list of peer records. -/
structure Rrc where
  peers : List Peer
deriving DecidableEq, Repr

/-- The raw snapshot shape consumed by `analyze_bgp_data`:
`data['data']['rrcs']`. -/
structure RawData where
  rrcs : List Rrc
deriving DecidableEq, Repr

/-- The stats dict built by `analyze_bgp_data`, with its six keys. -/
structure Stats where
  total_paths : Nat
  AS10236 : Nat
  AS19905 : Nat
  OTHER : Nat
  AS3758 : Nat
  AS17645 : Nat
deriving DecidableEq, Repr

/-- The all-zero stats dict `analyze_bgp_data` starts from. -/
def initStats : Stats := ⟨0, 0, 0, 0, 0, 0⟩

/-- Whitespace characters Python `str.split()` splits on. -/
def pyIsSpace (c : Char) : Bool :=
  c = ' ' || c = '\t' || c = '\n' || c = '\r' || c = '\x0b' || c = '\x0c'

/-- Structural worker for `pySplit`: `acc` holds the current token's
characters in reverse. -/
def pySplitGo (acc : List Char) : List Char → List String
  | [] => if acc.isEmpty then [] else [⟨acc.reverse⟩]
  | c :: cs =>
    if pyIsSpace c then
      if acc.isEmpty then pySplitGo [] cs else ⟨acc.reverse⟩ :: pySplitGo [] cs
    else pySplitGo (c :: acc) cs

/-- Python `str.split()` with no argument: split on runs of whitespace,
discarding empty pieces. -/
def pySplit (s : String) : List String := pySplitGo [] s.data

/-- Model of `peer['as_path'].split()`: raises (`AttributeError`) when the value is
not a string. -/
def splitAsPath : PyVal → Except Unit (List String)
  | .str s => .ok (pySplit s)
  | .int _ => .error ()

/-- Origin ASN counting (`app.py` lines 105-111): exactly one of the three
origin counters is incremented, by string-literal comparison. -/
def originStep (origin : PyVal) (stats : Stats) : Stats :=
  if pyEq origin (.str "10236") then { stats with AS10236 := stats.AS10236 + 1 }
  else if pyEq origin (.str "19905") then { stats with AS19905 := stats.AS19905 + 1 }
  else { stats with OTHER := stats.OTHER + 1 }

/-- The prepend-skipping loop (`app.py` lines 119-121):
`i = …; while i >= 0 and as_path[i] == asn_origin: i -= 1`.
`scanIdx asPath origin i` is the value of `i` at loop exit when it is still
`>= 0`, and `none` when the loop ran the index below `0`. -/
def scanIdx (asPath : List String) (origin : PyVal) : Nat → Option Nat
  | 0 => if pyEq (.str (asPath.getD 0 "")) origin then none else some 0
  | i + 1 =>
    if pyEq (.str (asPath.getD (i + 1) "")) origin then scanIdx asPath origin i
    else some (i + 1)

/-- Upstream ASN counting for one peer (`app.py` lines 113-127), given the
already split path. -/
def upstreamStep (validUpstreams : List String) (origin : PyVal)
    (asPath : List String) (stats : Stats) : Stats :=
  if 2 ≤ asPath.length then
    match scanIdx asPath origin (asPath.length - 2) with
    | none => stats
    | some i =>
      let second_last := asPath.getD i ""
      if second_last = "3758" ∧ "AS3758" ∈ validUpstreams then
        { stats with AS3758 := stats.AS3758 + 1 }
      else if second_last = "17645" ∧ "AS17645" ∈ validUpstreams then
        { stats with AS17645 := stats.AS17645 + 1 }
      else stats
  else stats

/-- The body of the inner `for peer in peers` loop: origin counting, then
upstream counting.  A missing `asn_origin` or `as_path` key raises
(`KeyError`), a non-string `as_path` raises on `.split()`
(`AttributeError`); either propagates out. -/
def processPeer (validUpstreams : List String) (stats : Stats) (peer : Peer) :
    Except Unit Stats :=
  match peer.asn_origin with
  | none => .error ()
  | some origin =>
    let stats1 := originStep origin stats
    match peer.as_path with
    | none => .error ()
    | some rawPath =>
      match splitAsPath rawPath with
      | .error e => .error e
      | .ok asPath => .ok (upstreamStep validUpstreams origin asPath stats1)

/-- The sequential `for peer in peers` loop: an exception raised by one
iteration propagates, abandoning the rest of the loop. -/
def foldPeers (validUpstreams : List String) (stats : Stats) :
    List Peer → Except Unit Stats
  | [] => .ok stats
  | p :: ps =>
    match processPeer validUpstreams stats p with
    | .error e => .error e
    | .ok s1 => foldPeers validUpstreams s1 ps

/-- One `for rrc in data['data']['rrcs']` iteration:
`stats['total_paths'] += len(peers)` first, then the peer loop. -/
def processRrc (validUpstreams : List String) (stats : Stats) (rrc : Rrc) :
    Except Unit Stats :=
  foldPeers validUpstreams
    { stats with total_paths := stats.total_paths + rrc.peers.length }
    rrc.peers

/-- The sequential `for rrc in …` loop, an exception again propagating. -/
def foldRrcs (validUpstreams : List String) (stats : Stats) :
    List Rrc → Except Unit Stats
  | [] => .ok stats
  | r :: rs =>
    match processRrc validUpstreams stats r with
    | .error e => .error e
    | .ok s1 => foldRrcs validUpstreams s1 rs

/-- Core of `analyze_bgp_data`, with the prefix's valid-upstream list already looked
up. -/
def analyzeCore (data : RawData) (validUpstreams : List String) :
    Except Unit Stats :=
  foldRrcs validUpstreams initStats data.rrcs

/-- The `VALID_UPSTREAMS` configuration dict (identical in both scripts). -/
def VALID_UPSTREAMS : String → List String
  | "171.18.48.0/24" => ["AS3758"]
  | "171.18.49.0/24" => ["AS17645"]
  | "171.18.50.0/24" => ["AS3758"]
  | "171.18.51.0/24" => ["AS17645"]
  | "171.18.48.0/23" => ["AS3758", "AS17645"]
  | "171.18.50.0/23" => ["AS3758", "AS17645"]
  | _ => []

/-- Function `analyze_bgp_data(data, prefix)` of both scripts. -/
def analyze_bgp_data (data : RawData) (pfx : String) : Except Unit Stats :=
  analyzeCore data (VALID_UPSTREAMS pfx)

/-- The `PREFIXES` list of both scripts. -/
def PREFIXES : List String :=
  ["171.18.48.0/24", "171.18.49.0/24", "171.18.50.0/24", "171.18.51.0/24",
   "171.18.48.0/23", "171.18.50.0/23"]

/-- The per-prefix bounded history of both scripts.  `α` is what the caller
stores in `stats_history`: `Stats` dicts in `RIPE_Route_Validation_v1.2.py`,
`Stats`-or-`None` in `app.py` (whose `update_plots` also appends the `None`
left by a failed fetch). -/
structure DataStorage (α : Type) where
  max_points : Nat
  timestamps : List String
  stats_history : List α
deriving DecidableEq, Repr

/-- Constructor `DataStorage.__init__(max_points=15)`. -/
def DataStorage.init (α : Type) (max_points : Nat := 15) : DataStorage α :=
  ⟨max_points, [], []⟩

/-- Method `DataStorage.add_stats`: append to both lists, then `pop(0)` each once
when the timestamp count exceeds `max_points`. -/
def DataStorage.add_stats (s : DataStorage α) (stats : α) (timestamp : String) :
    DataStorage α :=
  let ts := s.timestamps ++ [timestamp]
  let sh := s.stats_history ++ [stats]
  if s.max_points < ts.length then
    { s with timestamps := ts.drop 1, stats_history := sh.drop 1 }
  else
    { s with timestamps := ts, stats_history := sh }

/-- Python list subscription `l[i]` on an `int` index, as a total function:
non-negative indices address from the front, negative indices wrap from the
back, and an index out of range after that adjustment raises (`none`). -/
def pyIndex (l : List α) (i : Int) : Option α :=
  if 0 ≤ i then l.get? i.toNat
  else if 0 ≤ i + l.length then l.get? (i + l.length).toNat
  else none

/-- Method `DataStorage.get_stats`: the guarded subscription
`if 0 <= index < len(self.stats_history): return self.stats_history[index]`,
else `None`. -/
def DataStorage.get_stats (s : DataStorage α) (index : Int) : Option α :=
  if 0 ≤ index ∧ index < (s.stats_history.length : Int) then
    pyIndex s.stats_history index
  else none

/-- The per-prefix body of `fetch_and_analyze_bgp`'s loop: a failed fetch
(or any exception raised while analyzing) is caught by the `try/except` and
leaves `all_stats[prefix] = None`; a clean run stores the classifier's
result. -/
def tickStats (fetched : Option RawData) (pfx : String) : Option Stats :=
  match fetched with
  | none => none
  | some d =>
    match analyze_bgp_data d pfx with
    | .ok stats => some stats
    | .error _ => none

/-- One whole tick of `fetch_and_analyze_bgp`: every configured prefix gets
an entry, failed or not — the loop never aborts early. -/
def runTick (fetch : String → Option RawData) (pfxs : List String) :
    List (String × Option Stats) :=
  pfxs.map (fun p => (p, tickStats (fetch p) p))

/-- The commit step of `app.py`'s `update_plots` (lines 140-141) for one
prefix: `data_stores[prefix].add_stats(all_stats[prefix], timestamp)`,
unconditionally — a failed prefix's `None` is appended too. -/
def commit_app (store : DataStorage (Option Stats)) (st : Option Stats)
    (ts : String) : DataStorage (Option Stats) :=
  store.add_stats st ts

/-- The commit step of `RIPE_Route_Validation_v1.2.py`'s `update_plots`
(lines 114-117) for one prefix: `if all_stats[prefix]:` guards the append,
so a failed prefix's history is left untouched.  (The surrounding
`if all_stats:` is true whenever the prefix loop ran, since `all_stats` then
has one key per configured prefix.) -/
def commit_v12 (store : DataStorage Stats) (st : Option Stats) (ts : String) :
    DataStorage Stats :=
  match st with
  | some stats => store.add_stats stats ts
  | none => store

/-- Folding a whole run of appends into a store, oldest first. -/
def addAll (s : DataStorage α) (pts : List (α × String)) : DataStorage α :=
  pts.foldl (fun t p => t.add_stats p.1 p.2) s

/-- The length/pairing invariant of a `DataStorage`: the two parallel lists
have the same length, and never more than `max_points` entries. -/
def DSInv (s : DataStorage α) : Prop :=
  s.timestamps.length = s.stats_history.length ∧
  s.timestamps.length ≤ s.max_points

instance (s : DataStorage α) : Decidable (DSInv s) := by
  unfold DSInv; infer_instance

/-- Modelled from the spec (§4.2 upstream scan, restated by the claim): the
*adjacent upstream candidate* — starting from the second-to-last path entry
and scanning backward, the first entry that differs from the origin ASN. -/
def specCandidate (asPath : List String) (origin : PyVal) : Option String :=
  ((asPath.take (asPath.length - 1)).reverse).find? (fun e => !(pyEq (.str e) origin))

/-- The candidate the code's scan loop settles on: `as_path[i]` at loop exit
when `i >= 0`, and nothing when the path is shorter than 2 or the loop ran
out. -/
def candidateOf (asPath : List String) (origin : PyVal) : Option String :=
  if 2 ≤ asPath.length then
    (scanIdx asPath origin (asPath.length - 2)).map (fun i => asPath.getD i "")
  else none

/-- The upstream increment `analyze_bgp_data` applies for a candidate `c`:
one of the two tracked counters, or nothing. -/
def incUpstream (c : String) (stats : Stats) : Stats :=
  if c = "3758" then { stats with AS3758 := stats.AS3758 + 1 }
  else if c = "17645" then { stats with AS17645 := stats.AS17645 + 1 }
  else stats

/-- A peer record the classifier cannot process without raising: missing
`asn_origin`, missing `as_path`, or a non-string `as_path`. -/
def isMalformed (p : Peer) : Bool :=
  p.asn_origin.isNone ||
  (match p.as_path with
   | none => true
   | some (.int _) => true
   | some (.str _) => false)

/-- Sum of the three origin counters. -/
def originSum (s : Stats) : Nat := s.AS10236 + s.AS19905 + s.OTHER

/-- Sum of the two upstream counters. -/
def upSum (s : Stats) : Nat := s.AS3758 + s.AS17645

/-- One-collector snapshot of the spec's end-to-end scenario: a prepended
path through AS3758 from origin 10236, and a foreign-origin path. -/
def scenarioData : RawData :=
  ⟨[⟨[⟨some (.str "10236"), some (.str "3758 10236 10236")⟩,
      ⟨some (.str "77777"), some (.str "9999 77777")⟩]⟩]⟩

/-- The stats dict the classifier returns for `scenarioData`. -/
def scenarioStats : Stats := ⟨2, 1, 0, 1, 1, 0⟩

/-- A snapshot whose single peer record is missing `asn_origin`. -/
def badData : RawData := ⟨[⟨[⟨none, some (.str "3758 10236")⟩]⟩]⟩

/-- Sixteen distinct-timestamp points, one more than the default capacity. -/
def fifoPts : List (Nat × String) :=
  [(0, "t00"), (1, "t01"), (2, "t02"), (3, "t03"), (4, "t04"), (5, "t05"),
   (6, "t06"), (7, "t07"), (8, "t08"), (9, "t09"), (10, "t10"), (11, "t11"),
   (12, "t12"), (13, "t13"), (14, "t14"), (15, "t15")]

/-- A fetch outcome where only `171.18.50.0/24` answers. -/
def fetchW : String → Option RawData :=
  fun p => if p = "171.18.50.0/24" then some scenarioData else none

end RouteValidation

namespace RouteValidation

lemma originStep_total (o : PyVal) (s : Stats) :
    (originStep o s).total_paths = s.total_paths := by
  unfold originStep; split_ifs <;> rfl

lemma originStep_originSum (o : PyVal) (s : Stats) :
    originSum (originStep o s) = originSum s + 1 := by
  unfold originStep originSum; split_ifs <;> simp <;> omega

lemma originStep_upSum (o : PyVal) (s : Stats) :
    upSum (originStep o s) = upSum s := by
  unfold originStep upSum; split_ifs <;> rfl

lemma upstreamStep_total (vu : List String) (o : PyVal) (ap : List String) (s : Stats) :
    (upstreamStep vu o ap s).total_paths = s.total_paths := by
  unfold upstreamStep
  split
  · split
    · rfl
    · dsimp only; split_ifs <;> rfl
  · rfl

lemma upstreamStep_originSum (vu : List String) (o : PyVal) (ap : List String) (s : Stats) :
    originSum (upstreamStep vu o ap s) = originSum s := by
  unfold upstreamStep originSum
  split
  · split
    · rfl
    · dsimp only; split_ifs <;> rfl
  · rfl

lemma upstreamStep_upSum (vu : List String) (o : PyVal) (ap : List String) (s : Stats) :
    upSum (upstreamStep vu o ap s) ≤ upSum s + 1 := by
  unfold upstreamStep upSum
  split
  · split
    · omega
    · dsimp only; split_ifs <;> simp <;> omega
  · omega

lemma processPeer_ok_delta (vu : List String) (st : Stats) (p : Peer) (st' : Stats)
    (h : processPeer vu st p = .ok st') :
    st'.total_paths = st.total_paths ∧ originSum st' = originSum st + 1 ∧
    upSum st' ≤ upSum st + 1 := by
  obtain ⟨ao, ap⟩ := p
  cases ao with
  | none => simp [processPeer] at h
  | some o =>
    cases ap with
    | none => simp [processPeer] at h
    | some pv =>
      cases pv with
      | int n => simp [processPeer, splitAsPath] at h
      | str s =>
        simp only [processPeer, splitAsPath] at h
        injection h with h
        subst h
        refine ⟨?_, ?_, ?_⟩
        · rw [upstreamStep_total, originStep_total]
        · rw [upstreamStep_originSum, originStep_originSum]
        · calc upSum (upstreamStep vu o (pySplit s) (originStep o st))
              ≤ upSum (originStep o st) + 1 := upstreamStep_upSum ..
            _ = upSum st + 1 := by rw [originStep_upSum]

end RouteValidation

namespace RouteValidation

lemma foldPeers_ok_delta (vu : List String) :
    ∀ (ps : List Peer) (st st' : Stats), foldPeers vu st ps = .ok st' →
      st'.total_paths = st.total_paths ∧
      originSum st' = originSum st + ps.length ∧
      upSum st' ≤ upSum st + ps.length := by
  intro ps
  induction ps with
  | nil =>
    intro st st' h
    simp only [foldPeers] at h
    injection h with h
    subst h
    simp
  | cons p ps ih =>
    intro st st' h
    simp only [foldPeers] at h
    cases hp : processPeer vu st p with
    | error e => rw [hp] at h; cases h
    | ok s1 =>
      rw [hp] at h
      obtain ⟨h1, h2, h3⟩ := processPeer_ok_delta vu st p s1 hp
      obtain ⟨g1, g2, g3⟩ := ih s1 st' h
      refine ⟨by omega, by simp; omega, by simp; omega⟩

lemma processRrc_ok_delta (vu : List String) (st st' : Stats) (r : Rrc)
    (h : processRrc vu st r = .ok st') :
    st'.total_paths = st.total_paths + r.peers.length ∧
    originSum st' = originSum st + r.peers.length ∧
    upSum st' ≤ upSum st + r.peers.length := by
  unfold processRrc at h
  obtain ⟨h1, h2, h3⟩ := foldPeers_ok_delta vu r.peers _ st' h
  refine ⟨by simpa using h1, by simpa [originSum] using h2, by simpa [upSum] using h3⟩

lemma foldRrcs_inv (vu : List String) :
    ∀ (rs : List Rrc) (st st' : Stats), foldRrcs vu st rs = .ok st' →
      originSum st = st.total_paths → upSum st ≤ st.total_paths →
      originSum st' = st'.total_paths ∧ upSum st' ≤ st'.total_paths := by
  intro rs
  induction rs with
  | nil =>
    intro st st' h h1 h2
    simp only [foldRrcs] at h
    injection h with h
    subst h
    exact ⟨h1, h2⟩
  | cons r rs ih =>
    intro st st' h h1 h2
    simp only [foldRrcs] at h
    cases hr : processRrc vu st r with
    | error e => rw [hr] at h; cases h
    | ok s1 =>
      rw [hr] at h
      obtain ⟨d1, d2, d3⟩ := processRrc_ok_delta vu st s1 r hr
      exact ih s1 st' h (by omega) (by omega)

/-- Claim C4: every stats dict `analyze_bgp_data` returns has its three
origin counters summing exactly to `total_paths`, and its upstream counters
(individually and summed) bounded by `total_paths`.  The counters are `Nat`,
so non-negativity is by construction. -/
theorem analyze_stats_invariant (data : RawData) (pfx : String) (stats : Stats)
    (h : analyze_bgp_data data pfx = .ok stats) :
    stats.AS10236 + stats.AS19905 + stats.OTHER = stats.total_paths ∧
    stats.AS3758 + stats.AS17645 ≤ stats.total_paths ∧
    stats.AS3758 ≤ stats.total_paths ∧ stats.AS17645 ≤ stats.total_paths := by
  unfold analyze_bgp_data analyzeCore at h
  obtain ⟨h1, h2⟩ := foldRrcs_inv (VALID_UPSTREAMS pfx) data.rrcs initStats stats h
    (by simp [originSum, initStats]) (by simp [upSum, initStats])
  unfold originSum at h1
  unfold upSum at h2
  exact ⟨h1, h2, by omega, by omega⟩

end RouteValidation

namespace RouteValidation

lemma processPeer_malformed (vu : List String) (st : Stats) (p : Peer)
    (h : isMalformed p = true) : processPeer vu st p = .error () := by
  obtain ⟨ao, ap⟩ := p
  cases ao with
  | none => rfl
  | some o =>
    cases ap with
    | none => rfl
    | some pv =>
      cases pv with
      | int n => rfl
      | str s => simp [isMalformed] at h

lemma processPeer_wellformed (vu : List String) (st : Stats) (p : Peer)
    (h : isMalformed p = false) :
    ∃ s1, processPeer vu st p = .ok s1 := by
  obtain ⟨ao, ap⟩ := p
  cases ao with
  | none => simp [isMalformed] at h
  | some o =>
    cases ap with
    | none => simp [isMalformed] at h
    | some pv =>
      cases pv with
      | int n => simp [isMalformed] at h
      | str s => exact ⟨_, rfl⟩

lemma foldPeers_error_of_malformed (vu : List String) :
    ∀ (ps : List Peer) (st : Stats), (∃ p ∈ ps, isMalformed p = true) →
      foldPeers vu st ps = .error () := by
  intro ps
  induction ps with
  | nil => intro st h; simp at h
  | cons q qs ih =>
    intro st h
    by_cases hq : isMalformed q = true
    · simp only [foldPeers, processPeer_malformed vu st q hq]
    · obtain ⟨s1, hs1⟩ := processPeer_wellformed vu st q (by simpa using hq)
      simp only [foldPeers, hs1]
      apply ih
      rcases h with ⟨p, hp, hm⟩
      rcases List.mem_cons.mp hp with h1 | h1
      · exact absurd (h1 ▸ hm) hq
      · exact ⟨p, h1, hm⟩

lemma foldPeers_ok_of_wellformed (vu : List String) :
    ∀ (ps : List Peer) (st : Stats), (∀ p ∈ ps, isMalformed p = false) →
      ∃ s1, foldPeers vu st ps = .ok s1 := by
  intro ps
  induction ps with
  | nil => intro st _; exact ⟨st, rfl⟩
  | cons q qs ih =>
    intro st h
    obtain ⟨s1, hs1⟩ := processPeer_wellformed vu st q (h q (by simp))
    obtain ⟨s2, hs2⟩ := ih s1 (fun p hp => h p (by simp [hp]))
    exact ⟨s2, by simp only [foldPeers, hs1, hs2]⟩

lemma foldRrcs_error_of_malformed (vu : List String) :
    ∀ (rs : List Rrc) (st : Stats),
      (∃ r ∈ rs, ∃ p ∈ r.peers, isMalformed p = true) →
      foldRrcs vu st rs = .error () := by
  intro rs
  induction rs with
  | nil => intro st h; simp at h
  | cons r rs ih =>
    intro st h
    by_cases hr : ∃ p ∈ r.peers, isMalformed p = true
    · have : processRrc vu st r = .error () := by
        unfold processRrc
        exact foldPeers_error_of_malformed vu r.peers _ hr
      simp only [foldRrcs, this]
    · push_neg at hr
      have hall : ∀ p ∈ r.peers, isMalformed p = false := by
        intro p hp
        simpa using hr p hp
      obtain ⟨s1, hs1⟩ := foldPeers_ok_of_wellformed vu r.peers
        { st with total_paths := st.total_paths + r.peers.length } hall
      have hok : processRrc vu st r = .ok s1 := by
        unfold processRrc; exact hs1
      simp only [foldRrcs, hok]
      apply ih
      rcases h with ⟨r', hr', p, hp, hm⟩
      rcases List.mem_cons.mp hr' with h1 | h1
      · exact absurd hm (hr p (h1 ▸ hp))
      · exact ⟨r', h1, p, hp, hm⟩

/-- Claim C3 (amended): a snapshot containing a peer record with a missing
`asn_origin`, a missing `as_path` or a non-string `as_path` makes
`analyze_bgp_data` raise (the exception leaves the classifier), and the
per-prefix `try/except` in `fetch_and_analyze_bgp` then records the whole
prefix as absent for the tick — the single observation is not skipped. -/
theorem analyze_malformed_raises (data : RawData) (pfx : String)
    (h : ∃ rrc ∈ data.rrcs, ∃ p ∈ rrc.peers, isMalformed p = true) :
    analyze_bgp_data data pfx = .error () ∧ tickStats (some data) pfx = none := by
  have he : analyze_bgp_data data pfx = .error () := by
    unfold analyze_bgp_data analyzeCore
    exact foldRrcs_error_of_malformed (VALID_UPSTREAMS pfx) data.rrcs initStats h
  refine ⟨he, ?_⟩
  simp only [tickStats, he]

/-- Claim C3 counterexample: on a concrete snapshot whose one peer lacks
`asn_origin`, the classifier does not skip the observation and continue —
it raises (`KeyError`) out of `analyze_bgp_data`. -/
theorem analyze_missing_origin_raises :
    analyze_bgp_data ⟨[⟨[⟨none, some (.str "3758 10236")⟩]⟩]⟩ "171.18.48.0/24"
      = .error () := by decide

theorem analyze_malformed_raises_witness :
    (∃ rrc ∈ badData.rrcs, ∃ p ∈ rrc.peers, isMalformed p = true) ∧
    analyze_bgp_data badData "171.18.49.0/24" = .error () ∧
    tickStats (some badData) "171.18.49.0/24" = none :=
  ⟨by decide, analyze_malformed_raises badData "171.18.49.0/24" (by decide)⟩

end RouteValidation

namespace RouteValidation

lemma scanIdx_spec (asPath : List String) (origin : PyVal) :
    ∀ i, i < asPath.length →
      (scanIdx asPath origin i).map (fun j => asPath.getD j "") =
        (asPath.take (i + 1)).reverse.find? (fun e => !(pyEq (.str e) origin)) := by
  intro i
  induction i with
  | zero =>
    intro hi
    cases asPath with
    | nil => simp at hi
    | cons a rest =>
      show (if pyEq (.str a) origin then (none : Option Nat) else some 0).map _ =
        List.find? _ [a]
      by_cases h : pyEq (.str a) origin
      · simp [h, List.find?]
      · simp [h, List.find?]
  | succ i ih =>
    intro hi
    have hlt : i < asPath.length := Nat.lt_of_succ_lt hi
    obtain ⟨a, ha⟩ : ∃ a, asPath[i + 1]? = some a := by
      cases hx : asPath[i + 1]? with
      | none => rw [List.getElem?_eq_none_iff] at hx; omega
      | some a => exact ⟨a, rfl⟩
    have hgd : asPath.getD (i + 1) "" = a := by
      rw [List.getD_eq_getElem?_getD, ha]; rfl
    have htake : (asPath.take (i + 1 + 1)).reverse = a :: (asPath.take (i + 1)).reverse := by
      rw [List.take_succ, ha]
      simp
    show (if pyEq (.str (asPath.getD (i + 1) "")) origin then scanIdx asPath origin i
      else some (i + 1)).map (fun j => asPath.getD j "") = _
    rw [hgd, htake]
    by_cases h : pyEq (.str a) origin
    · rw [if_pos h, List.find?_cons_of_neg _ (by simp [h])]
      exact ih hlt
    · rw [if_neg h, List.find?_cons_of_pos _ (by simp [h])]
      simp [ha]

lemma candidateOf_eq_specCandidate (asPath : List String) (origin : PyVal) :
    candidateOf asPath origin = specCandidate asPath origin := by
  unfold candidateOf specCandidate
  by_cases h : 2 ≤ asPath.length
  · rw [if_pos h]
    have h2 : asPath.length - 2 + 1 = asPath.length - 1 := by omega
    rw [← h2]
    exact scanIdx_spec asPath origin (asPath.length - 2) (by omega)
  · rw [if_neg h]
    have h1 : asPath.length - 1 = 0 := by omega
    rw [h1]
    simp

end RouteValidation

namespace RouteValidation

lemma str_append_left_cancel (a b c : String) (h : a ++ b = a ++ c) : b = c := by
  have hd := congrArg String.data h
  simp only [String.data_append, List.append_cancel_left_eq] at hd
  exact String.ext hd

lemma upstreamStep_frame (vu : List String) (o : PyVal) (ap : List String) (s : Stats) :
    (upstreamStep vu o ap s).total_paths = s.total_paths ∧
    (upstreamStep vu o ap s).AS10236 = s.AS10236 ∧
    (upstreamStep vu o ap s).AS19905 = s.AS19905 ∧
    (upstreamStep vu o ap s).OTHER = s.OTHER := by
  unfold upstreamStep
  split
  · split
    · exact ⟨rfl, rfl, rfl, rfl⟩
    · dsimp only; split_ifs <;> exact ⟨rfl, rfl, rfl, rfl⟩
  · exact ⟨rfl, rfl, rfl, rfl⟩

lemma upstreamStep_short (vu : List String) (o : PyVal) (ap : List String) (s : Stats)
    (h : ap.length ≤ 1) : upstreamStep vu o ap s = s := by
  unfold upstreamStep
  rw [if_neg (by omega)]

lemma upstreamStep_of_no_candidate (vu : List String) (o : PyVal) (ap : List String)
    (s : Stats) (h : specCandidate ap o = none) : upstreamStep vu o ap s = s := by
  by_cases hl : 2 ≤ ap.length
  · have hc : candidateOf ap o = none := by rw [candidateOf_eq_specCandidate, h]
    unfold candidateOf at hc
    rw [if_pos hl, Option.map_eq_none'] at hc
    unfold upstreamStep
    rw [if_pos hl, hc]
  · exact upstreamStep_short vu o ap s (by omega)

lemma specCandidate_of_all_origin (ap : List String) (o : PyVal)
    (h : ∀ e ∈ ap, pyEq (.str e) o = true) : specCandidate ap o = none := by
  unfold specCandidate
  rw [List.find?_eq_none]
  intro e he
  have : e ∈ ap := List.mem_of_mem_take (List.mem_reverse.mp he)
  simp [h e this]

/-- Claim C5: the code's backward scan from the second-to-last path entry
skips exactly the entries equal to the origin and settles on the spec's
adjacent upstream candidate; no candidate (short path or pure prepending)
leaves the stats unchanged; a candidate in the prefix's ValidUpstreams set
(stored as `"AS" ++ asn`) bumps exactly that ASN's counter, any other
candidate changes nothing; upstream accounting never touches `total_paths`
or the origin counters. -/
theorem upstream_scan_correct (vu : List String) (origin : PyVal)
    (asPath : List String) (stats : Stats)
    (hvu : ∀ x ∈ vu, x = "AS3758" ∨ x = "AS17645") :
    candidateOf asPath origin = specCandidate asPath origin ∧
    (asPath.length ≤ 1 → upstreamStep vu origin asPath stats = stats) ∧
    ((∀ e ∈ asPath, pyEq (.str e) origin = true) →
        upstreamStep vu origin asPath stats = stats) ∧
    (specCandidate asPath origin = none →
        upstreamStep vu origin asPath stats = stats) ∧
    (∀ c, specCandidate asPath origin = some c →
      (("AS" ++ c) ∈ vu →
        (c = "3758" ∨ c = "17645") ∧
        upstreamStep vu origin asPath stats = incUpstream c stats) ∧
      (("AS" ++ c) ∉ vu → upstreamStep vu origin asPath stats = stats)) ∧
    (upstreamStep vu origin asPath stats).total_paths = stats.total_paths ∧
    (upstreamStep vu origin asPath stats).AS10236 = stats.AS10236 ∧
    (upstreamStep vu origin asPath stats).AS19905 = stats.AS19905 ∧
    (upstreamStep vu origin asPath stats).OTHER = stats.OTHER := by
  refine ⟨candidateOf_eq_specCandidate asPath origin,
    upstreamStep_short vu origin asPath stats,
    fun h => upstreamStep_of_no_candidate vu origin asPath stats
      (specCandidate_of_all_origin asPath origin h),
    upstreamStep_of_no_candidate vu origin asPath stats,
    ?_, upstreamStep_frame vu origin asPath stats⟩
  intro c hc
  have hcand : candidateOf asPath origin = some c := by
    rw [candidateOf_eq_specCandidate, hc]
  unfold candidateOf at hcand
  by_cases hl : 2 ≤ asPath.length
  · rw [if_pos hl, Option.map_eq_some'] at hcand
    obtain ⟨i, hscan, hgd⟩ := hcand
    have hstep : upstreamStep vu origin asPath stats =
        (if c = "3758" ∧ "AS3758" ∈ vu then
          { stats with AS3758 := stats.AS3758 + 1 }
        else if c = "17645" ∧ "AS17645" ∈ vu then
          { stats with AS17645 := stats.AS17645 + 1 }
        else stats) := by
      unfold upstreamStep
      rw [if_pos hl, hscan]
      dsimp only
      rw [hgd]
    constructor
    · intro hmem
      have hcval : c = "3758" ∨ c = "17645" := by
        rcases hvu _ hmem with h1 | h1
        · exact Or.inl (str_append_left_cancel "AS" c "3758" (by rw [h1]; decide))
        · exact Or.inr (str_append_left_cancel "AS" c "17645" (by rw [h1]; decide))
      refine ⟨hcval, ?_⟩
      rcases hcval with rfl | rfl
      · have hm : "AS3758" ∈ vu := by
          have : ("AS" ++ "3758" : String) = "AS3758" := by decide
          rwa [this] at hmem
        rw [hstep, if_pos ⟨rfl, hm⟩]
        unfold incUpstream
        rw [if_pos rfl]
      · have hm : "AS17645" ∈ vu := by
          have : ("AS" ++ "17645" : String) = "AS17645" := by decide
          rwa [this] at hmem
        rw [hstep, if_neg (by simp), if_pos ⟨rfl, hm⟩]
        unfold incUpstream
        rw [if_neg (by decide), if_pos rfl]
    · intro hmem
      rw [hstep]
      by_cases h1 : c = "3758"
      · subst h1
        have : "AS3758" ∉ vu := by
          intro hin
          exact hmem (by have : ("AS" ++ "3758" : String) = "AS3758" := by decide
                         rw [this]; exact hin)
        rw [if_neg (by simp [this]), if_neg (by simp)]
      · by_cases h2 : c = "17645"
        · subst h2
          have : "AS17645" ∉ vu := by
            intro hin
            exact hmem (by have : ("AS" ++ "17645" : String) = "AS17645" := by decide
                           rw [this]; exact hin)
          rw [if_neg (by simp [h1]), if_neg (by simp [this])]
        · rw [if_neg (by simp [h1]), if_neg (by simp [h2])]
  · rw [if_neg hl] at hcand
    cases hcand

end RouteValidation

namespace RouteValidation

lemma add_stats_of_full (s : DataStorage α) (st : α) (t : String)
    (h : s.max_points ≤ s.timestamps.length) :
    s.add_stats st t = { s with timestamps := (s.timestamps ++ [t]).drop 1,
                                stats_history := (s.stats_history ++ [st]).drop 1 } := by
  unfold DataStorage.add_stats
  rw [if_pos (by simp; omega)]

lemma add_stats_of_room (s : DataStorage α) (st : α) (t : String)
    (h : s.timestamps.length < s.max_points) :
    s.add_stats st t = { s with timestamps := s.timestamps ++ [t],
                                stats_history := s.stats_history ++ [st] } := by
  unfold DataStorage.add_stats
  rw [if_neg (by simp; omega)]

lemma addAll_window {α : Type} : ∀ (pts : List (α × String)) (s : DataStorage α),
    s.timestamps.length = s.stats_history.length →
    s.timestamps.length ≤ s.max_points →
    (addAll s pts).max_points = s.max_points ∧
    (addAll s pts).timestamps =
      (s.timestamps ++ pts.map Prod.snd).drop
        (s.timestamps.length + pts.length - s.max_points) ∧
    (addAll s pts).stats_history =
      (s.stats_history ++ pts.map Prod.fst).drop
        (s.timestamps.length + pts.length - s.max_points) := by
  intro pts
  induction pts with
  | nil =>
    intro s h1 h2
    refine ⟨rfl, ?_, ?_⟩ <;>
      simp [addAll, Nat.sub_eq_zero_of_le, h1, h2, h1 ▸ h2]
  | cons p ps ih =>
    intro s h1 h2
    have hstep : addAll s (p :: ps) = addAll (s.add_stats p.1 p.2) ps := by
      simp [addAll]
    rw [hstep]
    by_cases hc : s.timestamps.length < s.max_points
    · rw [add_stats_of_room s p.1 p.2 hc]
      obtain ⟨g0, g1, g2⟩ := ih { s with timestamps := s.timestamps ++ [p.2],
                                          stats_history := s.stats_history ++ [p.1] }
        (by simp [h1]) (by simp; omega)
      dsimp only at g0 g1 g2
      refine ⟨g0, ?_, ?_⟩
      · rw [g1]
        have hidx : (s.timestamps ++ [p.2]).length + ps.length - s.max_points
            = s.timestamps.length + (p :: ps).length - s.max_points := by
          simp; omega
        rw [hidx, List.append_assoc, List.singleton_append, List.map_cons]
      · rw [g2]
        have hidx : (s.timestamps ++ [p.2]).length + ps.length - s.max_points
            = s.timestamps.length + (p :: ps).length - s.max_points := by
          simp; omega
        rw [hidx, List.append_assoc, List.singleton_append, List.map_cons]
    · have hfull : s.max_points ≤ s.timestamps.length := by omega
      rw [add_stats_of_full s p.1 p.2 hfull]
      obtain ⟨g0, g1, g2⟩ := ih { s with timestamps := (s.timestamps ++ [p.2]).drop 1,
                                          stats_history := (s.stats_history ++ [p.1]).drop 1 }
        (by simp [h1]) (by simp; omega)
      dsimp only at g0 g1 g2
      refine ⟨g0, ?_, ?_⟩
      · rw [g1]
        rw [← List.drop_append_of_le_length (by simp)]
        rw [List.drop_drop]
        have hidx : 1 + (((s.timestamps ++ [p.2]).drop 1).length + ps.length - s.max_points)
            = s.timestamps.length + (p :: ps).length - s.max_points := by
          simp; omega
        rw [hidx, List.append_assoc, List.singleton_append, List.map_cons]
      · rw [g2]
        rw [← List.drop_append_of_le_length (by simp)]
        rw [List.drop_drop]
        have hidx : 1 + (((s.stats_history ++ [p.1]).drop 1).length + ps.length - s.max_points)
            = s.timestamps.length + (p :: ps).length - s.max_points := by
          simp [← h1]; omega
        have hidx2 : ((s.timestamps ++ [p.2]).drop 1).length + ps.length - s.max_points
            = ((s.stats_history ++ [p.1]).drop 1).length + ps.length - s.max_points := by
          simp [h1]
        rw [hidx2, hidx, List.append_assoc, List.singleton_append, List.map_cons]

end RouteValidation

namespace RouteValidation

/-- Claim C6: appending `maxPoints + k` distinct-timestamp points (k ≥ 1)
to an empty store leaves exactly the `maxPoints` most recent points in
oldest-first order, and an append at capacity evicts exactly the single
oldest point from the front. -/
theorem bounded_history_fifo (α : Type) (m k : Nat) (pts : List (α × String))
    (hm : 1 ≤ m) (hlen : pts.length = m + k) (hk : 1 ≤ k)
    (hdistinct : (pts.map Prod.snd).Pairwise (· ≠ ·)) :
    (addAll (DataStorage.init α m) pts).timestamps = (pts.map Prod.snd).drop k ∧
    (addAll (DataStorage.init α m) pts).stats_history = (pts.map Prod.fst).drop k ∧
    (addAll (DataStorage.init α m) pts).timestamps.length = m ∧
    (∀ (s : DataStorage α) (st : α) (t : String),
      1 ≤ s.max_points →
      s.timestamps.length = s.max_points →
      s.stats_history.length = s.max_points →
      (s.add_stats st t).timestamps = s.timestamps.drop 1 ++ [t] ∧
      (s.add_stats st t).stats_history = s.stats_history.drop 1 ++ [st]) := by
  obtain ⟨g0, g1, g2⟩ := addAll_window pts (DataStorage.init α m) rfl (by simp [DataStorage.init])
  have e1 : (DataStorage.init α m).timestamps = [] := rfl
  have e2 : (DataStorage.init α m).stats_history = [] := rfl
  have e3 : (DataStorage.init α m).max_points = m := rfl
  rw [e1] at g1 g2
  rw [e2] at g2
  rw [e3] at g1 g2
  simp only [List.nil_append, List.length_nil, Nat.zero_add] at g1 g2
  have hidx : pts.length - m = k := by omega
  rw [hidx] at g1 g2
  refine ⟨g1, g2, ?_, ?_⟩
  · rw [g1]
    simp
    omega
  · intro s st t h0 ht hh
    rw [add_stats_of_full s st t (by omega)]
    constructor
    · dsimp only
      rw [List.drop_append_of_le_length (by omega)]
    · dsimp only
      rw [List.drop_append_of_le_length (by omega)]

/-- Claim C9: a fresh `DataStorage` satisfies the pairing invariant — the
two parallel lists have equal length, at most `max_points` — and every
`add_stats` call preserves it. -/
theorem dataStorage_parallel_invariant (α : Type) (m : Nat) (hm : 1 ≤ m) :
    DSInv (DataStorage.init α m) ∧
    (∀ (s : DataStorage α) (st : α) (ts : String),
      DSInv s → DSInv (s.add_stats st ts)) := by
  constructor
  · exact ⟨rfl, by simp [DataStorage.init]⟩
  · intro s st ts hinv
    obtain ⟨h1, h2⟩ := hinv
    unfold DataStorage.add_stats DSInv
    dsimp only
    split_ifs with hc <;> simp at hc ⊢ <;> omega

/-- Claim C8: `get_stats` returns the `i`-th stored entry exactly when
`0 ≤ i < len(stats_history)` and `None` for every other integer index; the
guard keeps Python's negative-index wraparound (modelled in `pyIndex`)
unreachable, and nothing raises. -/
theorem get_stats_index_semantics (α : Type) (s : DataStorage α) (i : Int) :
    s.get_stats i = if h : 0 ≤ i ∧ i.toNat < s.stats_history.length
      then some (s.stats_history.get ⟨i.toNat, h.2⟩) else none := by
  unfold DataStorage.get_stats pyIndex
  by_cases h1 : 0 ≤ i ∧ i < (s.stats_history.length : Int)
  · rw [if_pos h1, if_pos h1.1]
    have h2 : i.toNat < s.stats_history.length := by omega
    rw [dif_pos ⟨h1.1, h2⟩]
    rw [List.get?_eq_get h2]
  · rw [if_neg h1, dif_neg ?_]
    intro hcon
    exact h1 ⟨hcon.1, by omega⟩

lemma scanIdx_nonstring (ap : List String) (n : Int) :
    ∀ j, scanIdx ap (.int n) j = some j := by
  intro j
  cases j <;> simp [scanIdx, pyEq]

/-- Claim C10: origin classification is string-literal sensitive — any
`asn_origin` that is not exactly the string "10236" or "19905" (an integer
in particular) lands in `OTHER` — and with a non-string origin the
prepend-skipping loop, comparing string path entries against it, skips
nothing, so the second-to-last entry becomes the candidate. -/
theorem origin_literal_sensitivity (origin : PyVal) (stats : Stats)
    (h1 : pyEq origin (.str "10236") = false)
    (h2 : pyEq origin (.str "19905") = false) :
    originStep origin stats = { stats with OTHER := stats.OTHER + 1 } ∧
    (∀ (n : Int) (asPath : List String), 2 ≤ asPath.length →
      scanIdx asPath (.int n) (asPath.length - 2) = some (asPath.length - 2) ∧
      candidateOf asPath (.int n) = some (asPath.getD (asPath.length - 2) "")) := by
  constructor
  · unfold originStep
    rw [if_neg (by simp [h1]), if_neg (by simp [h2])]
  · intro n ap hl
    refine ⟨scanIdx_nonstring ap n _, ?_⟩
    unfold candidateOf
    rw [if_pos hl, scanIdx_nonstring ap n _]
    rfl

end RouteValidation

namespace RouteValidation

/-- Claim C7: the spec's end-to-end scenario — ValidUpstreams `{3758}`
(stored as `["AS3758"]` for prefix `171.18.48.0/24`), peers
`[{origin 10236, path "3758 10236 10236"}, {origin 77777, path "9999 77777"}]`
— yields `total_paths = 2`, `AS10236 = 1`, `AS19905 = 0`, `OTHER = 1`,
`AS3758 = 1`. -/
theorem scenario_end_to_end :
    analyze_bgp_data scenarioData "171.18.48.0/24" = .ok scenarioStats := by decide

/-- Claim C1 (code behaviour at the failing input): `add_stats` has no
duplicate-timestamp guard — appending under a timestamp equal to the last
stored one grows the history from one entry to two identical-timestamp
entries instead of being a no-op. -/
theorem add_stats_duplicate_timestamp_appends :
    ((DataStorage.mk 15 ["10:00"] [scenarioStats]).add_stats scenarioStats "10:00").timestamps
      = ["10:00", "10:00"] ∧
    ((DataStorage.mk 15 ["10:00"] [scenarioStats]).add_stats scenarioStats "10:00").timestamps.length
      ≠ (DataStorage.mk 15 ["10:00"] [scenarioStats]).timestamps.length ∧
    ((DataStorage.mk 15 ["10:00"] [scenarioStats]).add_stats scenarioStats "10:00").stats_history
      = [scenarioStats, scenarioStats] := by decide

/-- Claim C2 counterexample: in `app.py`'s commit step a tick in which the
prefix's fetch failed still appends (a `None` placeholder) to that prefix's
history — its length changes from 0 to 1, not "unchanged". -/
theorem tick_failed_prefix_history_grows :
    (commit_app (DataStorage.init (Option Stats) 15)
        (tickStats none "171.18.48.0/24") "10:00").stats_history = [none] ∧
    (commit_app (DataStorage.init (Option Stats) 15)
        (tickStats none "171.18.48.0/24") "10:00").stats_history.length
      ≠ (DataStorage.init (Option Stats) 15).stats_history.length := by decide

/-- Claim C2 (amended): a tick where `p1`'s fetch fails and `p2`'s
succeeds reports `p1` absent and `p2` present and never aborts early; the
v1.2 commit leaves `p1`'s history untouched and grows `p2`'s by one entry
(below capacity), while `app.py`'s commit appends a `None` placeholder to
`p1`'s history. -/
theorem tick_partial_failure (p1 p2 ts : String) (d : RawData) (stats : Stats)
    (storeApp : DataStorage (Option Stats)) (storeV12 storeP2 : DataStorage Stats)
    (fetch : String → Option RawData) (pfxs : List String)
    (hok : analyze_bgp_data d p2 = .ok stats)
    (happ2 : storeApp.timestamps.length < storeApp.max_points)
    (hp22 : storeP2.timestamps.length < storeP2.max_points)
    (hf1 : fetch p1 = none) (hf2 : fetch p2 = some d)
    (hm1 : p1 ∈ pfxs) (hm2 : p2 ∈ pfxs) :
    tickStats (fetch p1) p1 = none ∧
    tickStats (fetch p2) p2 = some stats ∧
    commit_v12 storeV12 (tickStats (fetch p1) p1) ts = storeV12 ∧
    (commit_app storeApp (tickStats (fetch p1) p1) ts).stats_history
      = storeApp.stats_history ++ [none] ∧
    (commit_v12 storeP2 (tickStats (fetch p2) p2) ts).stats_history
      = storeP2.stats_history ++ [stats] ∧
    (p1, (none : Option Stats)) ∈ runTick fetch pfxs ∧
    (p2, some stats) ∈ runTick fetch pfxs ∧
    (runTick fetch pfxs).length = pfxs.length := by
  have h1 : tickStats (fetch p1) p1 = none := by rw [hf1]; rfl
  have h2 : tickStats (fetch p2) p2 = some stats := by
    rw [hf2]
    unfold tickStats
    dsimp only
    rw [hok]
  refine ⟨h1, h2, ?_, ?_, ?_, ?_, ?_, ?_⟩
  · rw [h1]; rfl
  · rw [h1]
    unfold commit_app
    rw [add_stats_of_room storeApp none ts happ2]
  · rw [h2]
    unfold commit_v12
    dsimp only
    rw [add_stats_of_room storeP2 stats ts hp22]
  · unfold runTick
    exact List.mem_map.mpr ⟨p1, hm1, by rw [h1]⟩
  · unfold runTick
    exact List.mem_map.mpr ⟨p2, hm2, by rw [h2]⟩
  · unfold runTick
    exact List.length_map pfxs _

end RouteValidation

namespace RouteValidation

theorem analyze_stats_invariant_witness :
    scenarioStats.AS10236 + scenarioStats.AS19905 + scenarioStats.OTHER
      = scenarioStats.total_paths ∧
    scenarioStats.AS3758 + scenarioStats.AS17645 ≤ scenarioStats.total_paths ∧
    scenarioStats.AS3758 ≤ scenarioStats.total_paths ∧
    scenarioStats.AS17645 ≤ scenarioStats.total_paths :=
  analyze_stats_invariant scenarioData "171.18.48.0/24" scenarioStats (by decide)

theorem upstream_scan_correct_witness :
    candidateOf ["3758", "10236", "10236"] (.str "10236") =
      specCandidate ["3758", "10236", "10236"] (.str "10236") ∧
    ((["3758", "10236", "10236"] : List String).length ≤ 1 →
      upstreamStep ["AS3758"] (.str "10236") ["3758", "10236", "10236"] initStats
        = initStats) ∧
    ((∀ e ∈ (["3758", "10236", "10236"] : List String),
        pyEq (.str e) (.str "10236") = true) →
      upstreamStep ["AS3758"] (.str "10236") ["3758", "10236", "10236"] initStats
        = initStats) ∧
    (specCandidate ["3758", "10236", "10236"] (.str "10236") = none →
      upstreamStep ["AS3758"] (.str "10236") ["3758", "10236", "10236"] initStats
        = initStats) ∧
    (∀ c, specCandidate ["3758", "10236", "10236"] (.str "10236") = some c →
      (("AS" ++ c) ∈ (["AS3758"] : List String) →
        (c = "3758" ∨ c = "17645") ∧
        upstreamStep ["AS3758"] (.str "10236") ["3758", "10236", "10236"] initStats
          = incUpstream c initStats) ∧
      (("AS" ++ c) ∉ (["AS3758"] : List String) →
        upstreamStep ["AS3758"] (.str "10236") ["3758", "10236", "10236"] initStats
          = initStats)) ∧
    (upstreamStep ["AS3758"] (.str "10236") ["3758", "10236", "10236"]
        initStats).total_paths = initStats.total_paths ∧
    (upstreamStep ["AS3758"] (.str "10236") ["3758", "10236", "10236"]
        initStats).AS10236 = initStats.AS10236 ∧
    (upstreamStep ["AS3758"] (.str "10236") ["3758", "10236", "10236"]
        initStats).AS19905 = initStats.AS19905 ∧
    (upstreamStep ["AS3758"] (.str "10236") ["3758", "10236", "10236"]
        initStats).OTHER = initStats.OTHER :=
  upstream_scan_correct ["AS3758"] (.str "10236") ["3758", "10236", "10236"]
    initStats (by decide)

theorem bounded_history_fifo_witness :
    (addAll (DataStorage.init Nat 15) fifoPts).timestamps
      = (fifoPts.map Prod.snd).drop 1 ∧
    (addAll (DataStorage.init Nat 15) fifoPts).stats_history
      = (fifoPts.map Prod.fst).drop 1 ∧
    (addAll (DataStorage.init Nat 15) fifoPts).timestamps.length = 15 ∧
    (∀ (s : DataStorage Nat) (st : Nat) (t : String),
      1 ≤ s.max_points →
      s.timestamps.length = s.max_points →
      s.stats_history.length = s.max_points →
      (s.add_stats st t).timestamps = s.timestamps.drop 1 ++ [t] ∧
      (s.add_stats st t).stats_history = s.stats_history.drop 1 ++ [st]) :=
  bounded_history_fifo Nat 15 1 fifoPts (by decide) (by decide) (by decide)
    (by decide)

theorem dataStorage_parallel_invariant_witness :
    DSInv (DataStorage.init Nat 15) ∧
    (∀ (s : DataStorage Nat) (st : Nat) (ts : String),
      DSInv s → DSInv (s.add_stats st ts)) :=
  dataStorage_parallel_invariant Nat 15 (by decide)

theorem origin_literal_sensitivity_witness :
    originStep (.int 10236) initStats
      = { initStats with OTHER := initStats.OTHER + 1 } ∧
    (∀ (n : Int) (asPath : List String), 2 ≤ asPath.length →
      scanIdx asPath (.int n) (asPath.length - 2) = some (asPath.length - 2) ∧
      candidateOf asPath (.int n) = some (asPath.getD (asPath.length - 2) "")) :=
  origin_literal_sensitivity (.int 10236) initStats (by decide) (by decide)

theorem tick_partial_failure_witness :
    tickStats (fetchW "171.18.48.0/24") "171.18.48.0/24" = none ∧
    tickStats (fetchW "171.18.50.0/24") "171.18.50.0/24" = some scenarioStats ∧
    commit_v12 (DataStorage.init Stats 15)
      (tickStats (fetchW "171.18.48.0/24") "171.18.48.0/24") "10:05"
      = DataStorage.init Stats 15 ∧
    (commit_app (DataStorage.init (Option Stats) 15)
        (tickStats (fetchW "171.18.48.0/24") "171.18.48.0/24") "10:05").stats_history
      = (DataStorage.init (Option Stats) 15).stats_history ++ [none] ∧
    (commit_v12 (DataStorage.init Stats 15)
        (tickStats (fetchW "171.18.50.0/24") "171.18.50.0/24") "10:05").stats_history
      = (DataStorage.init Stats 15).stats_history ++ [scenarioStats] ∧
    ("171.18.48.0/24", (none : Option Stats))
      ∈ runTick fetchW ["171.18.48.0/24", "171.18.50.0/24"] ∧
    ("171.18.50.0/24", some scenarioStats)
      ∈ runTick fetchW ["171.18.48.0/24", "171.18.50.0/24"] ∧
    (runTick fetchW ["171.18.48.0/24", "171.18.50.0/24"]).length
      = (["171.18.48.0/24", "171.18.50.0/24"] : List String).length :=
  tick_partial_failure "171.18.48.0/24" "171.18.50.0/24" "10:05" scenarioData
    scenarioStats (DataStorage.init (Option Stats) 15) (DataStorage.init Stats 15)
    (DataStorage.init Stats 15) fetchW ["171.18.48.0/24", "171.18.50.0/24"]
    (by decide) (by decide) (by decide) (by decide) (by decide) (by decide)
    (by decide)

end RouteValidation
